import Mathlib

/-!
Verification of the admission-webhook protocol engine of `ezadmis`
(`webhook.go`): the patch accumulator (`webhookResponseWriter`), the
response builder (`Build`), the HTTP protocol adapter
(`WrapWebhookHandler`), and the server lifecycle
(`ListenAndServeGracefully`, `NewWebhookServer`).

Modelling conventions:
* Go `any` values carried inside JSON-patch operations are modelled by the
  inductive `JValue`; the constructor `JValue.unserializable` stands for Go
  values that `encoding/json` rejects (channels, functions, ...).
* `encoding/json.Marshal` is modelled by `marshal`: objects are emitted with
  their keys sorted (as Go does for maps), strings are escaped in Go's
  HTML-safe style, and marshalling fails exactly when the value contains an
  unserializable leaf.  `json.MarshalIndent(v, "", "  ")` is modelled by
  `marshalInd`.
* Go's multiple return values `(res *T, err error)` are modelled as pairs
  `T × Option String` (the pointer `res` set by `Build` is never nil in the
  source, so no `Option` is needed on the first component).
* One invocation of the `http.HandlerFunc` returned by `WrapWebhookHandler`
  is modelled as a function from the decode outcome of the request body to a
  `ServeOutcome`, which records the observable event trace (lock operations,
  log lines, the handler invocation) together with the HTTP response that is
  written.  A `none` outcome marks the nil-pointer dereference that the Go
  code performs when the decoded review has no `request` field.
-/

namespace Ezadmis

/-- Model of a JSON-encodable Go value (`any`). `unserializable` stands for a
Go value rejected by `encoding/json` (e.g. a channel or function). -/
inductive JValue where
  | null : JValue
  | bool (b : Bool) : JValue
  | num (n : Int) : JValue
  | str (s : String) : JValue
  | arr (elems : List JValue) : JValue
  | obj (fields : List (String × JValue)) : JValue
  | unserializable (tag : String) : JValue

/-- A JSON-patch operation as the source stores it: a Go `map[string]any`,
modelled as an association list (Go map key sorting happens at marshal
time). -/
abbrev PatchOp := List (String × JValue)

mutual

/-- Decides whether `encoding/json.Marshal` succeeds on a value: it fails
exactly when some leaf is `unserializable`. -/
def serializable : JValue → Bool
  | .null => true
  | .bool _ => true
  | .num _ => true
  | .str _ => true
  | .arr xs => serializableList xs
  | .obj fs => serializableFields fs
  | .unserializable _ => false

/-- The list version of the `serializable` check. -/
def serializableList : List JValue → Bool
  | [] => true
  | x :: xs => serializable x && serializableList xs

/-- The field-list version of the `serializable` check. -/
def serializableFields : List (String × JValue) → Bool
  | [] => true
  | f :: fs => serializable f.2 && serializableFields fs

end

/-- Escapes one character the way Go's `encoding/json` does (HTML-safe
escaping of `<`, `>`, `&`, plus the standard JSON escapes). -/
def escChar (c : Char) : String :=
  if c = '"' then "\\\""
  else if c = '\\' then "\\\\"
  else if c = '\n' then "\\n"
  else if c = '\r' then "\\r"
  else if c = '\t' then "\\t"
  else if c = '<' then "\\u003c"
  else if c = '>' then "\\u003e"
  else if c = '&' then "\\u0026"
  else if c.toNat < 32 then
    "\\u00" ++ String.singleton (Nat.digitChar (c.toNat / 16))
      ++ String.singleton (Nat.digitChar (c.toNat % 16))
  else String.singleton c

/-- Quotes and escapes a string as a JSON string literal. -/
def quoteString (s : String) : String :=
  "\"" ++ String.join (s.data.map escChar) ++ "\""

/-- Inserts a field into a key-sorted field list (helper of the Go map key
sorting performed by `encoding/json`). -/
def insertField (p : String × JValue) : List (String × JValue) → List (String × JValue)
  | [] => [p]
  | q :: qs => if p.1 ≤ q.1 then p :: q :: qs else q :: insertField p qs

/-- Sorts an object's fields by key, as `encoding/json` does for Go maps. -/
def sortFields : List (String × JValue) → List (String × JValue)
  | [] => []
  | p :: ps => insertField p (sortFields ps)

mutual

/-- Recursively sorts every object's fields by key. -/
def sortJ : JValue → JValue
  | .obj fs => .obj (sortFields (sortJFields fs))
  | .arr xs => .arr (sortJList xs)
  | .null => .null
  | .bool b => .bool b
  | .num n => .num n
  | .str s => .str s
  | .unserializable t => .unserializable t

/-- The list version of `sortJ`. -/
def sortJList : List JValue → List JValue
  | [] => []
  | x :: xs => sortJ x :: sortJList xs

/-- The field-list version of `sortJ`. -/
def sortJFields : List (String × JValue) → List (String × JValue)
  | [] => []
  | f :: fs => (f.1, sortJ f.2) :: sortJFields fs

end

mutual

/-- Compact JSON rendering of a value whose objects are already
key-sorted. -/
def marshalStr : JValue → String
  | .null => "null"
  | .bool true => "true"
  | .bool false => "false"
  | .num n => toString n
  | .str s => quoteString s
  | .arr xs => "[" ++ marshalStrList xs ++ "]"
  | .obj fs => "\x7b" ++ marshalStrFields fs ++ "\x7d"
  | .unserializable _ => ""

/-- Comma-joined rendering of array elements. -/
def marshalStrList : List JValue → String
  | [] => ""
  | [x] => marshalStr x
  | x :: xs => marshalStr x ++ "," ++ marshalStrList xs

/-- Comma-joined rendering of object fields. -/
def marshalStrFields : List (String × JValue) → String
  | [] => ""
  | [f] => quoteString f.1 ++ ":" ++ marshalStr f.2
  | f :: fs => quoteString f.1 ++ ":" ++ marshalStr f.2 ++ "," ++ marshalStrFields fs

end

/-- Model of `encoding/json.Marshal`: fails exactly on unserializable
leaves, otherwise renders compact JSON with object keys sorted. -/
def marshal (v : JValue) : Except String String :=
  if serializable v then .ok (marshalStr (sortJ v)) else .error "json: unsupported type"

mutual

/-- Indented JSON rendering (model of `json.MarshalIndent(v, "", "  ")`),
`cur` being the current indentation prefix. -/
def marshalIndStr (cur : String) : JValue → String
  | .arr [] => "[]"
  | .arr (x :: xs) =>
      "[\n" ++ marshalIndStrList (cur ++ "  ") (x :: xs) ++ "\n" ++ cur ++ "]"
  | .obj [] => "\x7b\x7d"
  | .obj (f :: fs) =>
      "\x7b\n" ++ marshalIndStrFields (cur ++ "  ") (f :: fs) ++ "\n" ++ cur ++ "\x7d"
  | .null => "null"
  | .bool true => "true"
  | .bool false => "false"
  | .num n => toString n
  | .str s => quoteString s
  | .unserializable _ => ""

/-- Indented rendering of array elements, one per line. -/
def marshalIndStrList (cur : String) : List JValue → String
  | [] => ""
  | [x] => cur ++ marshalIndStr cur x
  | x :: xs => cur ++ marshalIndStr cur x ++ ",\n" ++ marshalIndStrList cur xs

/-- Indented rendering of object fields, one per line. -/
def marshalIndStrFields (cur : String) : List (String × JValue) → String
  | [] => ""
  | [f] => cur ++ quoteString f.1 ++ ": " ++ marshalIndStr cur f.2
  | f :: fs => cur ++ quoteString f.1 ++ ": " ++ marshalIndStr cur f.2 ++ ",\n"
      ++ marshalIndStrFields cur fs

end

/-- Model of `json.MarshalIndent(v, "", "  ")`. -/
def marshalInd (v : JValue) : Except String String :=
  if serializable v then .ok (marshalIndStr "" (sortJ v)) else .error "json: unsupported type"

/-- State of the accumulator `webhookResponseWriter`: the ordered patch
operations and the deny message (empty string means allow). -/
structure WebhookResponseWriter where
  patches : List PatchOp
  deny : String

/-- Method `Deny` of `webhookResponseWriter`: sets the deny message. -/
def Deny (w : WebhookResponseWriter) (deny : String) : WebhookResponseWriter :=
  { w with deny := deny }

/-- Method `PatchRaw`: appends a raw JSON-patch operation. -/
def PatchRaw (w : WebhookResponseWriter) (patch : PatchOp) : WebhookResponseWriter :=
  { w with patches := w.patches ++ [patch] }

/-- Method `PatchAdd`: appends a JSON-patch `add` operation. -/
def PatchAdd (w : WebhookResponseWriter) (path : String) (value : JValue) : WebhookResponseWriter :=
  PatchRaw w [("op", .str "add"), ("path", .str path), ("value", value)]

/-- Method `PatchRemove`: appends a JSON-patch `remove` operation. -/
def PatchRemove (w : WebhookResponseWriter) (path : String) : WebhookResponseWriter :=
  PatchRaw w [("op", .str "remove"), ("path", .str path)]

/-- Method `PatchReplace`: appends a JSON-patch `replace` operation. -/
def PatchReplace (w : WebhookResponseWriter) (path : String) (value : JValue) :
    WebhookResponseWriter :=
  PatchRaw w [("op", .str "replace"), ("path", .str path), ("value", value)]

/-- Method `PatchCopy`: appends a JSON-patch `copy` operation. -/
def PatchCopy (w : WebhookResponseWriter) (path : String) (frm : String) :
    WebhookResponseWriter :=
  PatchRaw w [("op", .str "copy"), ("path", .str path), ("from", .str frm)]

/-- Method `PatchMove`: appends a JSON-patch `move` operation. -/
def PatchMove (w : WebhookResponseWriter) (path : String) (frm : String) :
    WebhookResponseWriter :=
  PatchRaw w [("op", .str "move"), ("path", .str path), ("from", .str frm)]

/-- Method `PatchTest`: appends a JSON-patch `test` operation. -/
def PatchTest (w : WebhookResponseWriter) (path : String) (value : JValue) :
    WebhookResponseWriter :=
  PatchRaw w [("op", .str "test"), ("path", .str path), ("value", value)]

/-- Model of `metav1.Status` as `Build` populates it. -/
structure MetaStatus where
  status : String
  message : String
  reason : String
deriving Repr, DecidableEq

/-- Model of `admissionv1.AdmissionResponse` (nil pointers and nil byte
slices are `none`; the `Patch` byte slice is modelled as a `String`). -/
structure AdmissionResponse where
  uid : String
  allowed : Bool
  patchType : Option String
  patch : Option String
  result : Option MetaStatus
deriving Repr, DecidableEq

/-- The `JValue` that `Build` hands to `json.Marshal`: the patch list as a
JSON array of objects. -/
def patchesJValue (ps : List PatchOp) : JValue :=
  .arr (ps.map .obj)

/-- Method `Build` of `webhookResponseWriter`: turns the accumulator state
into the admission response, returning the Go pair `(res, err)`. -/
def Build (w : WebhookResponseWriter) (uid : String) :
    AdmissionResponse × Option String :=
  let res : AdmissionResponse :=
    { uid := uid, allowed := w.deny = "", patchType := none, patch := none, result := none }
  if w.deny = "" then
    if w.patches.length ≠ 0 then
      let res := { res with patchType := some "JSONPatch" }
      match marshal (patchesJValue w.patches) with
      | .error e => (res, some ("WebhookResponseWriter#Build(): " ++ e))
      | .ok s => ({ res with patch := some s }, none)
    else
      (res, none)
  else
    ({ res with
        result := some { status := "Failure", message := w.deny, reason := "BadRequest" } },
      none)

/-- Model of `metav1.TypeMeta` (the `apiVersion`/`kind` envelope
metadata). -/
structure TypeMeta where
  apiVersion : String
  kind : String
deriving Repr, DecidableEq

/-- Model of `admissionv1.AdmissionRequest` as far as the engine inspects
it: only the `UID` is read; everything else is opaque pass-through. -/
structure AdmissionRequest where
  uid : String
deriving Repr, DecidableEq

/-- Model of the inbound `admissionv1.AdmissionReview` envelope. The
`Request` pointer may be nil (`none`) after decoding. -/
structure AdmissionReview where
  typeMeta : TypeMeta
  request : Option AdmissionRequest
deriving Repr, DecidableEq

/-- Model of the outbound `admissionv1.AdmissionReview` envelope built by
the adapter: the echoed type metadata plus the built response. -/
structure AdmissionReviewOut where
  typeMeta : TypeMeta
  response : Option AdmissionResponse
deriving Repr, DecidableEq

/-- The base64 alphabet used by `encoding/base64.StdEncoding`. -/
def b64Alphabet : List Char :=
  "ABCDEFGHIJKLMNOPQRSTUVWXYZabcdefghijklmnopqrstuvwxyz0123456789+/".data

/-- The base64 digit for a 6-bit value. -/
def b64Digit (n : Nat) : Char :=
  b64Alphabet.getD n 'A'

/-- Standard base64 of a byte list. -/
def base64Bytes : List Nat → String
  | [] => ""
  | [a] =>
      String.mk [b64Digit (a / 4), b64Digit (a % 4 * 16)] ++ "=="
  | [a, b] =>
      String.mk [b64Digit (a / 4), b64Digit (a % 4 * 16 + b / 16), b64Digit (b % 16 * 4)] ++ "="
  | a :: b :: c :: rest =>
      String.mk [b64Digit (a / 4), b64Digit (a % 4 * 16 + b / 16),
        b64Digit (b % 16 * 4 + c / 64), b64Digit (c % 64)] ++ base64Bytes rest

/-- Standard base64 of a string's UTF-8 bytes (how `encoding/json` renders
a `[]byte` field such as `AdmissionResponse.Patch`). -/
def base64 (s : String) : String :=
  base64Bytes (s.toUTF8.toList.map (fun b => b.toNat))

/-- The JSON value `encoding/json` produces for a `metav1.Status` as
`Build` populates it (all three populated fields carry `omitempty`). -/
def statusToJValue (st : MetaStatus) : JValue :=
  .obj ((if st.status = "" then [] else [("status", .str st.status)])
    ++ (if st.message = "" then [] else [("message", .str st.message)])
    ++ (if st.reason = "" then [] else [("reason", .str st.reason)])
    ++ [("metadata", .obj [])])

/-- The JSON value for an `admissionv1.AdmissionResponse` (fields `patch`,
`patchType` and `status` carry `omitempty`; `patch` is a byte slice and is
base64-encoded). -/
def responseToJValue (r : AdmissionResponse) : JValue :=
  .obj ([("uid", .str r.uid), ("allowed", .bool r.allowed)]
    ++ (match r.result with
        | none => []
        | some st => [("status", statusToJValue st)])
    ++ (match r.patch with
        | none => []
        | some p => [("patch", .str (base64 p))])
    ++ (match r.patchType with
        | none => []
        | some t => [("patchType", .str t)]))

/-- The JSON value for the inbound review envelope (used by the debug dump
of the decoded request; `TypeMeta` fields and `request` carry
`omitempty`). -/
def reviewInToJValue (rv : AdmissionReview) : JValue :=
  .obj ((if rv.typeMeta.kind = "" then [] else [("kind", .str rv.typeMeta.kind)])
    ++ (if rv.typeMeta.apiVersion = "" then [] else [("apiVersion", .str rv.typeMeta.apiVersion)])
    ++ (match rv.request with
        | none => []
        | some r => [("request", .obj [("uid", .str r.uid)])]))

/-- The JSON value for the outbound review envelope. -/
def reviewOutToJValue (rv : AdmissionReviewOut) : JValue :=
  .obj ((if rv.typeMeta.kind = "" then [] else [("kind", .str rv.typeMeta.kind)])
    ++ (if rv.typeMeta.apiVersion = "" then [] else [("apiVersion", .str rv.typeMeta.apiVersion)])
    ++ (match rv.response with
        | none => []
        | some r => [("response", responseToJValue r)]))

/-- Observable events of one request served by the wrapped handler: lock
operations on the debug lock, log lines, and the invocation of the
caller-supplied handler. -/
inductive Event where
  | lockAcquire : Event
  | lockRelease : Event
  | logLine (s : String) : Event
  | handlerInvoke : Event
deriving Repr, DecidableEq

/-- The separator line `strings.Repeat("=", 80)` logged in debug mode. -/
def sep80 : String :=
  String.mk (List.replicate 80 '=')

/-- Result of serving one request: the event trace, the HTTP status and
body written, the `Content-Type` header, and (on success) the response
envelope that was encoded into the body. -/
structure ServeOutcome where
  events : List Event
  status : Nat
  contentType : String
  body : String
  sent : Option AdmissionReviewOut
deriving Repr, DecidableEq

/-- Options for wrapping a handler (`WrapWebhookHandlerOptions`). -/
structure WrapWebhookHandlerOptions where
  debug : Bool
deriving Repr, DecidableEq

/-- A caller-supplied `WebhookHandler`: receives the decoded request (a
possibly-nil pointer) and the fresh response writer by mutable reference;
returns the final writer state and an optional error.  The Go `context` is
opaque pass-through and is not modelled. -/
def WebhookHandler :=
  Option AdmissionRequest → WebhookResponseWriter → WebhookResponseWriter × Option String

/-- Debug dump of the decoded request (`json.MarshalIndent`, error
ignored as in the source: `raw, _ := ...`). -/
def requestDump (rv : AdmissionReview) : String :=
  match marshalInd (reviewInToJValue rv) with
  | .ok s => s
  | .error _ => ""

/-- The body of the wrapped handler between the debug prologue and the
deferred epilogue: decode, optional request dump, handler execution,
response build, response encoding.  Returns the events it logs, the `err`
variable at function exit, and on success the encoded envelope with its
body text.  `none` models the nil-pointer dereference the source performs
(`reqReview.Request.UID`) when the decoded review carries no request. -/
def coreStep (opts : WrapWebhookHandlerOptions) (handler : WebhookHandler)
    (decodeRes : Except String AdmissionReview) :
    Option (List Event × Option String × Option (AdmissionReviewOut × String)) :=
  match decodeRes with
  | .error e =>
      some ([], some ("failed to unmarshal AdmissionReview request: " ++ e), none)
  | .ok reqReview =>
      let dbgEvs : List Event :=
        if opts.debug then [.logLine "Request:", .logLine (requestDump reqReview)] else []
      let hres := handler reqReview.request { patches := [], deny := "" }
      let evs := dbgEvs ++ [Event.handlerInvoke]
      match hres.2 with
      | some he => some (evs, some ("failed to execute WebhookHandler: " ++ he), none)
      | none =>
          match reqReview.request with
          | none => none
          | some r =>
              let bres := Build hres.1 r.uid
              match bres.2 with
              | some be =>
                  some (evs, some ("failed to build AdmissionReview response: " ++ be), none)
              | none =>
                  let resReview : AdmissionReviewOut :=
                    { typeMeta := reqReview.typeMeta, response := some bres.1 }
                  let enc :=
                    if opts.debug then marshalInd (reviewOutToJValue resReview)
                    else marshal (reviewOutToJValue resReview)
                  match enc with
                  | .error me =>
                      some (evs, some ("failed to marshal AdmissionReview response: " ++ me), none)
                  | .ok buf =>
                      let evs2 := evs ++
                        (if opts.debug then [Event.logLine "Response:", .logLine buf] else [])
                      some (evs2, none, some (resReview, buf))

/-- Log events of the deferred error writer: one log line when the `err`
variable is non-nil at exit, nothing otherwise. -/
def errLogEvents : Option String → List Event
  | some e => [.logLine ("ezadmis: webhook http handler failed: " ++ e)]
  | none => []

/-- Model of one invocation of the `http.HandlerFunc` returned by
`WrapWebhookHandler`, as a function of the JSON-decode outcome of the
request body.  Wraps `coreStep` with the debug lock/log prologue and the
deferred error-writing and debug epilogue, in the source's defer order
(error writer first, then the separator log, then the unlock). -/
def WrapWebhookHandler (opts : WrapWebhookHandlerOptions) (handler : WebhookHandler)
    (decodeRes : Except String AdmissionReview) : Option ServeOutcome :=
  match coreStep opts handler decodeRes with
  | none => none
  | some (evs, err, sent) =>
      let prologue : List Event :=
        if opts.debug then [.lockAcquire, .logLine sep80] else []
      let epilogue : List Event :=
        if opts.debug then [.logLine sep80, .lockRelease] else []
      let allEvs := prologue ++ evs ++ errLogEvents err ++ epilogue
      match err, sent with
      | some e, _ =>
          some { events := allEvs, status := 500,
                 contentType := "text/plain; charset=utf-8",
                 body := e ++ "\n", sent := none }
      | none, none =>
          some { events := allEvs, status := 200,
                 contentType := "application/json", body := "", sent := none }
      | none, some (rv, buf) =>
          some { events := allEvs, status := 200,
                 contentType := "application/json", body := buf, sent := some rv }

/-- Tracks whether the debug lock is held when `handlerInvoke` occurs in a
trace, starting from the given held state. -/
def lockHeldAux : Bool → List Event → Bool
  | _, [] => false
  | _, .lockAcquire :: rest => lockHeldAux true rest
  | _, .lockRelease :: rest => lockHeldAux false rest
  | held, .handlerInvoke :: rest => held || lockHeldAux held rest
  | held, .logLine _ :: rest => lockHeldAux held rest

/-- True when some handler invocation in the trace happens while the debug
lock is held. -/
def lockHeldDuringHandler (evs : List Event) : Bool :=
  lockHeldAux false evs

/-- Which of the two racing events of `ListenAndServeGracefully` fires: the
serve goroutine sending its terminal error on `chErr`, or an OS signal
arriving on `chSig`. -/
inductive RaceWinner where
  | serveDone (err : Option String) : RaceWinner
  | signal (sig : String) : RaceWinner
deriving Repr, DecidableEq

/-- State of the two channels when the `select` runs: `chErr` may hold the
serve goroutine's terminal error, `chSig` may hold a caught signal. -/
structure Channels where
  chErr : Option (Option String)
  chSig : Option String
deriving Repr, DecidableEq

/-- Which case of the `select` fires: the ready channel wins; when both are
ready Go picks nondeterministically (modelled by the `tiebreak` oracle);
when neither is ready the `select` blocks (`none`). -/
def selectOutcome (tiebreak : Bool) (ch : Channels) : Option RaceWinner :=
  match ch.chErr, ch.chSig with
  | some e, none => some (.serveDone e)
  | none, some s => some (.signal s)
  | some e, some s => some (if tiebreak then .serveDone e else .signal s)
  | none, none => none

/-- Observable outcome of `ListenAndServeGracefully`: the returned error,
whether `Shutdown` was invoked, and the log lines written. -/
structure GracefulOutcome where
  returned : Option String
  shutdownCalled : Bool
  logs : List String
deriving Repr, DecidableEq

/-- Model of `webhookServer.ListenAndServeGracefully`: the `select` over
`chErr` and `chSig`, with the result of `Shutdown(context.Background())`
supplied as `shutdownResult`.  Blocks (`none`) only when neither channel is
ready. -/
def ListenAndServeGracefully (tiebreak : Bool) (ch : Channels)
    (shutdownResult : Option String) : Option GracefulOutcome :=
  match selectOutcome tiebreak ch with
  | none => none
  | some (.serveDone e) =>
      some { returned := e, shutdownCalled := false, logs := [] }
  | some (.signal s) =>
      some { returned := shutdownResult, shutdownCalled := true,
             logs := ["signal caught: " ++ s] }

/-- Options for `NewWebhookServer` (`WebhookServerOptions`); the nil
`Handler` of Go is `none`. -/
structure WebhookServerOptions where
  port : Nat
  certFile : String
  keyFile : String
  debug : Bool
  handler : Option WebhookHandler

/-- The default options returned by `DefaultWebhookServerOptions`. -/
def defaultWebhookServerOptions : WebhookServerOptions :=
  { port := 443, certFile := "/admission-server/tls.crt",
    keyFile := "/admission-server/tls.key", debug := false, handler := none }

/-- The default handler `NewWebhookServer` installs when `opts.Handler` is
nil: it returns nil without touching the response writer. -/
def defaultHandler : WebhookHandler :=
  fun _ w => (w, none)

/-- Model of the `webhookServer` value built by `NewWebhookServer`: the
resolved options, the listen address, and the wrapped handler's
configuration (the `http.Server`'s `Handler` field is
`WrapWebhookHandler {Debug: opts.Debug} opts.Handler`). -/
structure WebhookServerModel where
  opts : WebhookServerOptions
  addr : String
  handlerOpts : WrapWebhookHandlerOptions
  handler : WebhookHandler

/-- Model of `NewWebhookServer`: fills in defaulted options and installs
the wrapped handler. -/
def NewWebhookServer (opts : WebhookServerOptions) : WebhookServerModel :=
  let dfo := defaultWebhookServerOptions
  let opts := if opts.port = 0 then { opts with port := dfo.port } else opts
  let opts := if opts.certFile = "" then { opts with certFile := dfo.certFile } else opts
  let opts := if opts.keyFile = "" then { opts with keyFile := dfo.keyFile } else opts
  let opts :=
    match opts.handler with
    | none => { opts with handler := some defaultHandler }
    | some _ => opts
  { opts := opts, addr := ":" ++ toString opts.port,
    handlerOpts := { debug := opts.debug },
    handler := opts.handler.getD defaultHandler }

/-! ### Call sequences against the accumulator -/

/-- One call against the `WebhookResponseWriter` interface. -/
inductive WriterCall where
  | patchAdd (path : String) (value : JValue) : WriterCall
  | patchRemove (path : String) : WriterCall
  | patchReplace (path : String) (value : JValue) : WriterCall
  | patchCopy (path : String) (frm : String) : WriterCall
  | patchMove (path : String) (frm : String) : WriterCall
  | patchTest (path : String) (value : JValue) : WriterCall
  | patchRaw (op : PatchOp) : WriterCall
  | deny (msg : String) : WriterCall

/-- Applies one interface call to the accumulator state. -/
def applyCall (w : WebhookResponseWriter) : WriterCall → WebhookResponseWriter
  | .patchAdd path v => PatchAdd w path v
  | .patchRemove path => PatchRemove w path
  | .patchReplace path v => PatchReplace w path v
  | .patchCopy path frm => PatchCopy w path frm
  | .patchMove path frm => PatchMove w path frm
  | .patchTest path v => PatchTest w path v
  | .patchRaw op => PatchRaw w op
  | .deny msg => Deny w msg

/-- Applies a sequence of interface calls in order. -/
def applyCalls (w : WebhookResponseWriter) (cs : List WriterCall) : WebhookResponseWriter :=
  cs.foldl applyCall w

/-- The patch operation a call appends (`none` for `deny`, which appends
nothing). -/
def callOp : WriterCall → Option PatchOp
  | .patchAdd path v => some [("op", .str "add"), ("path", .str path), ("value", v)]
  | .patchRemove path => some [("op", .str "remove"), ("path", .str path)]
  | .patchReplace path v => some [("op", .str "replace"), ("path", .str path), ("value", v)]
  | .patchCopy path frm => some [("op", .str "copy"), ("path", .str path), ("from", .str frm)]
  | .patchMove path frm => some [("op", .str "move"), ("path", .str path), ("from", .str frm)]
  | .patchTest path v => some [("op", .str "test"), ("path", .str path), ("value", v)]
  | .patchRaw op => some op
  | .deny _ => none

/-- Decides that a call sequence contains no `deny`. -/
def noDeny (cs : List WriterCall) : Bool :=
  cs.all fun c => match c with | .deny _ => false | _ => true

/-- Every call appends exactly `callOp` to the patch list. -/
theorem applyCall_patches (w : WebhookResponseWriter) (c : WriterCall) :
    (applyCall w c).patches = w.patches ++ (callOp c).toList := by
  cases c <;>
    simp [applyCall, callOp, PatchAdd, PatchRemove, PatchReplace, PatchCopy, PatchMove,
      PatchTest, PatchRaw, Deny]

/-- A call sequence appends exactly its `callOp`s, in order. -/
theorem applyCalls_patches (cs : List WriterCall) (w : WebhookResponseWriter) :
    (applyCalls w cs).patches = w.patches ++ cs.filterMap callOp := by
  induction cs generalizing w with
  | nil => simp [applyCalls]
  | cons c cs ih =>
      rw [applyCalls, List.foldl_cons, ← applyCalls, ih, applyCall_patches]
      cases h : callOp c <;> simp [List.filterMap_cons, h]

/-- A patch call leaves the deny message unchanged. -/
theorem applyCall_deny (w : WebhookResponseWriter) (c : WriterCall)
    (h : (match c with | .deny _ => false | _ => true) = true) :
    (applyCall w c).deny = w.deny := by
  cases c <;>
    simp_all [applyCall, PatchAdd, PatchRemove, PatchReplace, PatchCopy, PatchMove,
      PatchTest, PatchRaw]

/-- A deny-free call sequence leaves the deny message unchanged. -/
theorem applyCalls_deny (cs : List WriterCall) (w : WebhookResponseWriter)
    (h : noDeny cs = true) :
    (applyCalls w cs).deny = w.deny := by
  induction cs generalizing w with
  | nil => simp [applyCalls]
  | cons c cs ih =>
      rw [noDeny, List.all_cons, Bool.and_eq_true] at h
      rw [applyCalls, List.foldl_cons, ← applyCalls, ih _ h.2, applyCall_deny _ _ h.1]

/-! ### Claim theorems on the accumulator and builder -/

/-- C1: whenever the deny message is non-empty at build time, `Build`
returns `allowed = false`, a `Failure`/`BadRequest` status carrying the
deny message, and no `patch`/`patchType` — whatever patch operations were
accumulated. -/
theorem build_deny_precedence (w : WebhookResponseWriter) (uid : String)
    (h : w.deny ≠ "") :
    Build w uid =
      ({ uid := uid, allowed := false, patchType := none, patch := none,
         result := some { status := "Failure", message := w.deny, reason := "BadRequest" } },
        none) := by
  unfold Build
  simp [h]

/-- Witness for C1 at a concrete state that also carries accumulated
operations. -/
theorem build_deny_precedence_witness :
    Build { patches := [[("op", .str "remove"), ("path", .str "/a")]], deny := "quota exceeded" }
        "abc" =
      ({ uid := "abc", allowed := false, patchType := none, patch := none,
         result := some { status := "Failure", message := "quota exceeded",
                          reason := "BadRequest" } },
        none) :=
  build_deny_precedence
    { patches := [[("op", .str "remove"), ("path", .str "/a")]], deny := "quota exceeded" }
    "abc" (by decide)

/-- C7: `Deny` only sets the deny message — the patch list is untouched —
and a second `Deny` overwrites the first, so the last message wins. -/
theorem deny_sets_only_message (w : WebhookResponseWriter) (m m' : String) :
    Deny w m = { patches := w.patches, deny := m }
      ∧ Deny (Deny w m') m = { patches := w.patches, deny := m } :=
  ⟨rfl, rfl⟩

/-- C8: every patch method appends exactly one operation — with the `op`
field set to the matching verb, and `PatchRaw` the supplied operation
verbatim — after the unchanged previous operations, and leaves the deny
message alone. -/
theorem patch_methods_append (w : WebhookResponseWriter) (path frm : String)
    (v : JValue) (op : PatchOp) :
    PatchAdd w path v =
      { patches := w.patches ++ [[("op", .str "add"), ("path", .str path), ("value", v)]],
        deny := w.deny }
    ∧ PatchRemove w path =
      { patches := w.patches ++ [[("op", .str "remove"), ("path", .str path)]],
        deny := w.deny }
    ∧ PatchReplace w path v =
      { patches := w.patches ++ [[("op", .str "replace"), ("path", .str path), ("value", v)]],
        deny := w.deny }
    ∧ PatchCopy w path frm =
      { patches := w.patches ++ [[("op", .str "copy"), ("path", .str path), ("from", .str frm)]],
        deny := w.deny }
    ∧ PatchMove w path frm =
      { patches := w.patches ++ [[("op", .str "move"), ("path", .str path), ("from", .str frm)]],
        deny := w.deny }
    ∧ PatchTest w path v =
      { patches := w.patches ++ [[("op", .str "test"), ("path", .str path), ("value", v)]],
        deny := w.deny }
    ∧ PatchRaw w op = { patches := w.patches ++ [op], deny := w.deny } :=
  ⟨rfl, rfl, rfl, rfl, rfl, rfl, rfl⟩

/-- C9: the response built by `Build` carries the supplied UID on every
branch — allow, deny, and even the marshalling-error branch. -/
theorem build_uid_copied (w : WebhookResponseWriter) (uid : String) :
    (Build w uid).1.uid = uid := by
  unfold Build
  by_cases h : w.deny = "" <;> simp [h]
  by_cases h2 : w.patches.length = 0 <;> simp [h2]
  cases hm : marshal (patchesJValue w.patches) <;> simp

/-- C2: for any deny-free call sequence, the accumulated patch list is
exactly the calls' operations in order, `Build` returns `allowed = true`,
an empty sequence yields neither `patch` nor `patchType`, and a non-empty
sequence whose JSON encoding succeeds yields `patchType = "JSONPatch"` and
`patch` equal to that encoding. -/
theorem build_allow_patches (cs : List WriterCall) (uid : String)
    (h : noDeny cs = true) :
    (applyCalls { patches := [], deny := "" } cs).patches = cs.filterMap callOp
    ∧ (Build (applyCalls { patches := [], deny := "" } cs) uid).1.allowed = true
    ∧ (cs.filterMap callOp = [] →
        Build (applyCalls { patches := [], deny := "" } cs) uid =
          ({ uid := uid, allowed := true, patchType := none, patch := none, result := none },
            none))
    ∧ (∀ s, marshal (patchesJValue (cs.filterMap callOp)) = .ok s →
        cs.filterMap callOp ≠ [] →
          Build (applyCalls { patches := [], deny := "" } cs) uid =
            ({ uid := uid, allowed := true, patchType := some "JSONPatch", patch := some s,
               result := none },
              none)) := by
  have hp : (applyCalls { patches := [], deny := "" } cs).patches = cs.filterMap callOp := by
    rw [applyCalls_patches]
    simp
  have hd : (applyCalls { patches := [], deny := "" } cs).deny = "" :=
    applyCalls_deny cs _ h
  refine ⟨hp, ?_, ?_, ?_⟩
  · unfold Build
    simp [hd]
    by_cases h2 : (applyCalls { patches := [], deny := "" } cs).patches.length = 0 <;>
      simp [h2]
    cases hm : marshal (patchesJValue (applyCalls { patches := [], deny := "" } cs).patches) <;>
      simp
  · intro he
    unfold Build
    rw [hp, he]
    simp [hd]
  · intro s hs hne
    unfold Build
    rw [hp, hs]
    simp [hd, hne]

/-- Witness for C2 on the spec's own example sequence
`patchAdd("/spec/replicas", 3)`. -/
theorem build_allow_patches_witness :
    (applyCalls { patches := [], deny := "" } [.patchAdd "/spec/replicas" (.num 3)]).patches
        = [[("op", .str "add"), ("path", .str "/spec/replicas"), ("value", .num 3)]]
    ∧ Build (applyCalls { patches := [], deny := "" } [.patchAdd "/spec/replicas" (.num 3)])
          "abc" =
        ({ uid := "abc", allowed := true, patchType := some "JSONPatch",
           patch := some (marshalStr (sortJ (patchesJValue
             [[("op", .str "add"), ("path", .str "/spec/replicas"), ("value", .num 3)]]))),
           result := none },
          none) := by
  have h := build_allow_patches [.patchAdd "/spec/replicas" (.num 3)] "abc" (by decide)
  exact ⟨h.1, h.2.2.2 _ rfl (by simp [callOp])⟩

/-- C4: with no deny message, a non-empty patch list, and a patch list
whose JSON encoding fails, `Build` reports the error (prefixed with its
own name) and the returned response carries neither a patch nor a result
status.  (In the source the accompanying `*AdmissionResponse` is discarded
by every caller when `err != nil`, so no response is produced from it.) -/
theorem build_marshal_error (w : WebhookResponseWriter) (uid e : String)
    (h1 : w.deny = "") (h2 : w.patches ≠ [])
    (h3 : marshal (patchesJValue w.patches) = .error e) :
    (Build w uid).2 = some ("WebhookResponseWriter#Build(): " ++ e)
    ∧ (Build w uid).1.patch = none
    ∧ (Build w uid).1.result = none := by
  have h2' : w.patches.length ≠ 0 := by
    simpa using h2
  unfold Build
  rw [h3]
  simp [h1, h2']

/-- Witness for C4 at a patch operation holding an unserializable Go
value. -/
theorem build_marshal_error_witness :
    (Build { patches := [[("value", .unserializable "chan int")]], deny := "" } "abc").2
        = some ("WebhookResponseWriter#Build(): " ++ "json: unsupported type")
    ∧ (Build { patches := [[("value", .unserializable "chan int")]], deny := "" } "abc").1.patch
        = none
    ∧ (Build { patches := [[("value", .unserializable "chan int")]], deny := "" } "abc").1.result
        = none :=
  build_marshal_error { patches := [[("value", .unserializable "chan int")]], deny := "" }
    "abc" "json: unsupported type" rfl (by simp) rfl

/-! ### Claim theorems on the protocol adapter -/

/-- C5: when the request body fails to decode, the wrapped handler never
invokes the caller-supplied handler, writes HTTP 500 whose body is the
decode-error message, and sends no response envelope. -/
theorem decode_failure_skips_handler (opts : WrapWebhookHandlerOptions)
    (handler : WebhookHandler) (e : String) :
    ∃ out, WrapWebhookHandler opts handler (.error e) = some out
      ∧ Event.handlerInvoke ∉ out.events
      ∧ out.status = 500
      ∧ out.body = "failed to unmarshal AdmissionReview request: " ++ e ++ "\n"
      ∧ out.sent = none := by
  refine ⟨_, rfl, ?_, rfl, rfl, rfl⟩
  cases h : opts.debug <;> simp [WrapWebhookHandler, coreStep, errLogEvents, h]

/-- C6: in `ListenAndServeGracefully`'s race, a winning signal triggers
`Shutdown` and the call returns the shutdown result (nil when it
succeeds), while a serve termination that wins is returned directly with
no shutdown attempt. -/
theorem graceful_race (tb : Bool) (ch : Channels) (sd e : Option String) (s : String) :
    (selectOutcome tb ch = some (.signal s) →
      ListenAndServeGracefully tb ch sd =
        some { returned := sd, shutdownCalled := true, logs := ["signal caught: " ++ s] })
    ∧ (selectOutcome tb ch = some (.serveDone e) →
      ListenAndServeGracefully tb ch sd =
        some { returned := e, shutdownCalled := false, logs := [] }) := by
  constructor <;> intro h <;> rw [ListenAndServeGracefully, h]

/-- Witness for C6: a caught `SIGTERM` with only the signal channel ready
returns the (nil) shutdown result after shutting down, and a serve error
with only the error channel ready is returned without shutdown. -/
theorem graceful_race_witness :
    ListenAndServeGracefully true { chErr := none, chSig := some "terminated" } none =
      some { returned := none, shutdownCalled := true, logs := ["signal caught: terminated"] }
    ∧ ListenAndServeGracefully true { chErr := some (some "listen tcp :443: bind: permission denied"), chSig := none } none =
      some { returned := some "listen tcp :443: bind: permission denied",
             shutdownCalled := false, logs := [] } :=
  ⟨(graceful_race true { chErr := none, chSig := some "terminated" } none none "terminated").1
      rfl,
   (graceful_race true { chErr := some (some "listen tcp :443: bind: permission denied"), chSig := none }
      none (some "listen tcp :443: bind: permission denied") "").2 rfl⟩

/-! ### The debug lock and the handler (claim C3) -/

/-- Decides that a trace contains no lock operation. -/
def noLockEvents (l : List Event) : Bool :=
  l.all fun e => match e with | .lockAcquire => false | .lockRelease => false | _ => true

/-- The events logged by the handler body itself contain no lock
operation: the only lock operations are the prologue's acquire and the
deferred release. -/
theorem coreStep_noLock (opts : WrapWebhookHandlerOptions) (handler : WebhookHandler)
    (dr : Except String AdmissionReview) (evs : List Event) (err : Option String)
    (sent : Option (AdmissionReviewOut × String))
    (h : coreStep opts handler dr = some (evs, err, sent)) :
    noLockEvents evs = true := by
  cases hd : opts.debug <;>
    simp only [coreStep, hd] at h <;>
    (repeat' split at h) <;>
    first
      | (simp only [Option.some.injEq, Prod.mk.injEq] at h
         obtain ⟨rfl, rfl, rfl⟩ := h
         simp [noLockEvents])
      | exact absurd h (by simp)

/-- The error-writer events contain no lock operation. -/
theorem errLogEvents_noLock (err : Option String) :
    noLockEvents (errLogEvents err) = true := by
  cases err <;> simp [errLogEvents, noLockEvents]

/-- Once the lock is held, a lock-free trace segment containing a handler
invocation witnesses the handler running under the lock. -/
theorem lockHeldAux_true_append {l : List Event} (r : List Event)
    (hl : noLockEvents l = true) (hm : Event.handlerInvoke ∈ l) :
    lockHeldAux true (l ++ r) = true := by
  induction l with
  | nil => cases hm
  | cons e t ih =>
      cases e with
      | lockAcquire => simp [noLockEvents] at hl
      | lockRelease => simp [noLockEvents] at hl
      | handlerInvoke => simp [lockHeldAux]
      | logLine s =>
          rw [List.cons_append, lockHeldAux]
          refine ih ?_ ?_
          · simpa [noLockEvents] using hl
          · rcases List.mem_cons.mp hm with h | h
            · exact absurd h (by simp)
            · exact h

/-- Amendment of C3: in debug mode the debug lock is acquired at the very
start of the request and released only by the deferred unlock at the very
end, so any handler invocation of the request runs while the lock is
held. -/
theorem debug_lock_spans_handler (handler : WebhookHandler)
    (dr : Except String AdmissionReview) (out : ServeOutcome)
    (h : WrapWebhookHandler { debug := true } handler dr = some out)
    (hm : Event.handlerInvoke ∈ out.events) :
    out.events.head? = some .lockAcquire
    ∧ out.events.getLast? = some .lockRelease
    ∧ lockHeldDuringHandler out.events = true := by
  cases hc : coreStep { debug := true } handler dr with
  | none =>
      rw [WrapWebhookHandler, hc] at h
      exact absurd h (by simp)
  | some t =>
      obtain ⟨evs, err, sent⟩ := t
      have hnl : noLockEvents evs = true := coreStep_noLock _ _ _ _ _ _ hc
      rw [WrapWebhookHandler, hc] at h
      have hev : out.events =
          [Event.lockAcquire, Event.logLine sep80] ++ evs ++ errLogEvents err
            ++ [Event.logLine sep80, Event.lockRelease] := by
        dsimp only at h
        split at h <;> (simp only [Option.some.injEq] at h; subst h; simp)
      rw [hev] at hm ⊢
      have hmem : Event.handlerInvoke ∈ evs := by
        cases herr : err <;> simp_all [errLogEvents]
      refine ⟨by simp, ?_, ?_⟩
      · rw [List.getLast?_append]
        rfl
      · show lockHeldAux false _ = true
        have : [Event.lockAcquire, Event.logLine sep80] ++ evs ++ errLogEvents err
            ++ [Event.logLine sep80, Event.lockRelease]
            = Event.lockAcquire :: Event.logLine sep80 ::
              (evs ++ (errLogEvents err ++ [Event.logLine sep80, Event.lockRelease])) := by
          simp
        rw [this, lockHeldAux, lockHeldAux]
        exact lockHeldAux_true_append _ hnl hmem

/-- The event trace of an outcome (empty for the panic outcome). -/
def traceOf : Option ServeOutcome → List Event
  | none => []
  | some o => o.events

/-- The sent envelope of an outcome (none for the panic outcome). -/
def sentOf : Option ServeOutcome → Option AdmissionReviewOut
  | none => none
  | some o => o.sent

/-- A trivial caller-supplied handler that allows the request untouched. -/
def cHandler : WebhookHandler :=
  fun _ w => (w, none)

/-- A concrete decoded request envelope. -/
def cReview : AdmissionReview :=
  { typeMeta := { apiVersion := "", kind := "" }, request := some { uid := "abc" } }

/-- Counterexample to C3 as stated: on a concrete debug-mode request the
caller-supplied handler runs while the debug lock is held, because the
source acquires the lock at the top of the request function and releases
it only in a deferred unlock at function exit. -/
theorem debug_lock_claim_cex :
    lockHeldDuringHandler
        (traceOf (WrapWebhookHandler { debug := true } cHandler (.ok cReview))) = true := by
  decide

/-- Witness for the amended C3 at the same concrete debug-mode request. -/
theorem debug_lock_spans_handler_witness :
    (traceOf (WrapWebhookHandler { debug := true } cHandler (.ok cReview))).head?
        = some Event.lockAcquire
    ∧ (traceOf (WrapWebhookHandler { debug := true } cHandler (.ok cReview))).getLast?
        = some Event.lockRelease
    ∧ lockHeldDuringHandler
        (traceOf (WrapWebhookHandler { debug := true } cHandler (.ok cReview))) = true :=
  debug_lock_spans_handler cHandler (.ok cReview) _ rfl (by decide)

/-! ### The default handler of `NewWebhookServer` (claim C10) -/

/-- Concatenation distributes over the field-list `serializable` check. -/
theorem serializableFields_append (a b : List (String × JValue)) :
    serializableFields (a ++ b) = (serializableFields a && serializableFields b) := by
  induction a with
  | nil => simp [serializableFields]
  | cons f fs ih => simp [serializableFields, ih, Bool.and_assoc]

/-- Strings are serializable. -/
theorem serializable_str (s : String) : serializable (.str s) = true := rfl

/-- Booleans are serializable. -/
theorem serializable_bool (b : Bool) : serializable (.bool b) = true := rfl

/-- Objects are serializable exactly when their fields are. -/
theorem serializable_obj (fs : List (String × JValue)) :
    serializable (.obj fs) = serializableFields fs := rfl

/-- The status object built from a `MetaStatus` always marshals. -/
theorem statusToJValue_serializable (st : MetaStatus) :
    serializable (statusToJValue st) = true := by
  simp only [statusToJValue, serializable_obj, serializableFields_append]
  split_ifs <;> simp [serializableFields, serializable_str, serializable_obj]

/-- The response object built from an `AdmissionResponse` always
marshals. -/
theorem responseToJValue_serializable (r : AdmissionResponse) :
    serializable (responseToJValue r) = true := by
  rcases r with ⟨uid, allowed, pt, p, res⟩
  cases pt <;> cases p <;> cases res <;>
    simp [responseToJValue, serializable_obj, serializableFields, serializableFields_append,
      serializable_str, serializable_bool, statusToJValue_serializable]

/-- The outbound review envelope always marshals. -/
theorem reviewOutToJValue_serializable (rv : AdmissionReviewOut) :
    serializable (reviewOutToJValue rv) = true := by
  rcases rv with ⟨⟨av, k⟩, resp⟩
  cases resp <;>
    (simp only [reviewOutToJValue, serializable_obj, serializableFields_append]
     split_ifs <;>
       simp [serializableFields, serializable_str, responseToJValue_serializable])

/-- With a nil handler, `NewWebhookServer` installs the default handler
and passes the debug flag through to the wrapped handler. -/
theorem newWebhookServer_nil_handler (opts : WebhookServerOptions)
    (h : opts.handler = none) :
    (NewWebhookServer opts).handler = defaultHandler
    ∧ (NewWebhookServer opts).handlerOpts = { debug := opts.debug } := by
  by_cases h1 : opts.port = 0 <;> by_cases h2 : opts.certFile = "" <;>
    by_cases h3 : opts.keyFile = "" <;>
    simp [NewWebhookServer, defaultWebhookServerOptions, h, h1, h2, h3]

/-- The response the builder produces from an untouched fresh writer. -/
def untouchedResponse (uid : String) : AdmissionResponse :=
  { uid := uid, allowed := true, patchType := none, patch := none, result := none }

/-- The envelope sent back for an untouched fresh writer. -/
def untouchedReviewOut (tm : TypeMeta) (uid : String) : AdmissionReviewOut :=
  { typeMeta := tm, response := some (untouchedResponse uid) }

/-- C10: a server built with a nil `Handler` serves every well-formed
request through the installed default handler, which records nothing, so
the response is `allowed = true` with no patch, no patch type, and no
status. -/
theorem nil_handler_allows (opts : WebhookServerOptions) (h : opts.handler = none)
    (tm : TypeMeta) (r : AdmissionRequest) :
    ∃ out,
      WrapWebhookHandler (NewWebhookServer opts).handlerOpts (NewWebhookServer opts).handler
          (.ok { typeMeta := tm, request := some r }) = some out
      ∧ out.status = 200
      ∧ out.sent = some (untouchedReviewOut tm r.uid) := by
  obtain ⟨hh, ho⟩ := newWebhookServer_nil_handler opts h
  rw [hh, ho]
  have hb : Build { patches := [], deny := "" } r.uid = (untouchedResponse r.uid, none) := by
    simp [Build, untouchedResponse]
  cases hd : opts.debug with
  | false =>
      have hc : coreStep { debug := false } defaultHandler
          (.ok { typeMeta := tm, request := some r }) =
          some ([Event.handlerInvoke], none,
            some (untouchedReviewOut tm r.uid,
              marshalStr (sortJ (reviewOutToJValue (untouchedReviewOut tm r.uid))))) := by
        simp [coreStep, defaultHandler, hb, marshal, reviewOutToJValue_serializable,
          untouchedReviewOut]
      rw [WrapWebhookHandler, hc]
      exact ⟨_, rfl, rfl, rfl⟩
  | true =>
      have hc : coreStep { debug := true } defaultHandler
          (.ok { typeMeta := tm, request := some r }) =
          some ([Event.logLine "Request:",
                 Event.logLine (requestDump { typeMeta := tm, request := some r }),
                 Event.handlerInvoke, Event.logLine "Response:",
                 Event.logLine (marshalIndStr "" (sortJ (reviewOutToJValue
                   (untouchedReviewOut tm r.uid))))], none,
            some (untouchedReviewOut tm r.uid,
              marshalIndStr "" (sortJ (reviewOutToJValue (untouchedReviewOut tm r.uid))))) := by
        simp [coreStep, defaultHandler, hb, marshalInd, reviewOutToJValue_serializable,
          untouchedReviewOut]
      rw [WrapWebhookHandler, hc]
      exact ⟨_, rfl, rfl, rfl⟩

/-- Concrete all-defaulted options with a nil handler. -/
def wOpts : WebhookServerOptions :=
  { port := 0, certFile := "", keyFile := "", debug := false, handler := none }

/-- Witness for C10 at fully defaulted options and a concrete request. -/
theorem nil_handler_allows_witness :
    sentOf (WrapWebhookHandler (NewWebhookServer wOpts).handlerOpts
        (NewWebhookServer wOpts).handler
        (.ok { typeMeta := ⟨"admission.k8s.io/v1", "AdmissionReview"⟩,
               request := some ⟨"abc"⟩ })) =
      some (untouchedReviewOut ⟨"admission.k8s.io/v1", "AdmissionReview"⟩ "abc") := by
  obtain ⟨out, h1, h2, h3⟩ := nil_handler_allows wOpts rfl
    ⟨"admission.k8s.io/v1", "AdmissionReview"⟩ ⟨"abc"⟩
  rw [h1]
  exact h3

end Ezadmis
